/-
  Verification of the SPAKE2+ core of the CHIP crypto PAL
  (src/src/crypto/CHIPCryptoPAL.h).

  The provided sources contain only the public header: the byte constants,
  the state/role enumerations, the class layout of the `Spake2p` state
  machine, and the inline constructor of `Spake2p_P256_SHA256_HKDF_HMAC`.
  The bodies of the protocol operations are not part of the sources, so
  they are modelled from the natural-language specification (marked
  `Modelled from the spec:` below).  Bytes are modelled as `Nat` values
  below 256; field elements are integers mod the P-256 group order.
-/
import Mathlib

/-! ### Byte-string utilities -/

/-- Big-endian encoding of `n` on exactly `k` bytes (most significant first). -/
def beBytes : Nat → Nat → List Nat
  | 0, _ => []
  | k + 1, n => beBytes k (n / 256) ++ [n % 256]

/-- Big-endian decoding of a byte string to a natural number. -/
def beNat (l : List Nat) : Nat := l.foldl (fun a b => a * 256 + b) 0

/-- Little-endian encoding of `n` on exactly `k` bytes (least significant first). -/
def leBytes : Nat → Nat → List Nat
  | 0, _ => []
  | k + 1, n => n % 256 :: leBytes k (n / 256)

/-- Transcript framing: each field is prefixed with its byte length encoded
as an unsigned little-endian 64-bit integer (spec section 4.3). -/
def lenEnc (l : List Nat) : List Nat := leBytes 8 l.length ++ l

theorem beBytes_length (k n : Nat) : (beBytes k n).length = k := by
  induction k generalizing n with
  | zero => rfl
  | succ k ih => simp [beBytes, ih]

theorem beNat_append_one (l : List Nat) (b : Nat) :
    beNat (l ++ [b]) = beNat l * 256 + b := by
  simp [beNat, List.foldl_append]

theorem beNat_beBytes (k n : Nat) (h : n < 256 ^ k) : beNat (beBytes k n) = n := by
  induction k generalizing n with
  | zero =>
    simp [beBytes, beNat]
    omega
  | succ k ih =>
    have hdiv : n / 256 < 256 ^ k := by
      rw [Nat.div_lt_iff_lt_mul (by norm_num)]
      calc n < 256 ^ (k + 1) := h
        _ = 256 ^ k * 256 := by ring
    rw [beBytes, beNat_append_one, ih _ hdiv]
    omega

theorem beBytes_zero (k : Nat) : beBytes k 0 = List.replicate k 0 := by
  induction k with
  | zero => rfl
  | succ k ih =>
    rw [beBytes, Nat.zero_div, ih, List.replicate_succ']

/-! ### Constants from the header -/

/-- `kMAX_Spake2p_Context_Size` from the header. -/
def kMAX_Spake2p_Context_Size : Nat := 1024

/-- `kMAX_Hash_Length` (= SHA-256 output size) from the header. -/
def kMAX_Hash_Length : Nat := 32

/-- `kP256_FE_Length` from the header. -/
def kP256_FE_Length : Nat := 32

/-- `kP256_Point_Length` from the header. -/
def kP256_Point_Length : Nat := 65

/-- The P-256 group order `q` (the curve order used to reduce field elements). -/
def qOrder : Nat := 115792089210356248762697446949407573529996955224135760342422259061068512044369

/-- The P-256 base-field prime `p`. -/
def pPrime : Nat := 115792089210356248762697446949407573530086143415290314195533631308867097853951

/-- The P-256 curve coefficient `b` (the curve is `y^2 = x^3 - 3x + b`). -/
def bCoeff : Nat := 41058363725152142129326129780047268409114441015993725554835256314039467401291

/-- x-coordinate of the P-256 generator. -/
def gxP256 : Nat := 48439561293906451759052585252797914202762949526041747995844080717082404635286

/-- y-coordinate of the P-256 generator. -/
def gyP256 : Nat := 36134250956749795798585127919587881956611106672985015071877198253568414405109

/-- The P-256 cofactor `h` (spec section 4.1: `PointCofactorMul` multiplies by it). -/
def p256Cofactor : Nat := 1

instance : NeZero qOrder := ⟨by decide⟩
instance : NeZero pPrime := ⟨by decide⟩

/-- The constant `spake2p_M_p256` transcribed from the header (lines 62-67). -/
def spake2p_M_p256 : List Nat :=
  [0x04, 0x88, 0x6e, 0x2f, 0x97, 0xac, 0xe4, 0x6e, 0x55, 0xba, 0x9d, 0xd7, 0x24, 0x25, 0x79, 0xf2, 0x99,
   0x3b, 0x64, 0xe1, 0x6e, 0xf3, 0xdc, 0xab, 0x95, 0xaf, 0xd4, 0x97, 0x33, 0x3d, 0x8f, 0xa1, 0x2f, 0x5f,
   0xf3, 0x55, 0x16, 0x3e, 0x43, 0xce, 0x22, 0x4e, 0x0b, 0x0e, 0x65, 0xff, 0x02, 0xac, 0x8e, 0x5c, 0x7b,
   0xe0, 0x94, 0x19, 0xc7, 0x85, 0xe0, 0xca, 0x54, 0x7d, 0x55, 0xa1, 0x2e, 0x2d, 0x20]

/-- The constant `spake2p_N_p256` transcribed from the header (lines 68-73). -/
def spake2p_N_p256 : List Nat :=
  [0x04, 0xd8, 0xbb, 0xd6, 0xc6, 0x39, 0xc6, 0x29, 0x37, 0xb0, 0x4d, 0x99, 0x7f, 0x38, 0xc3, 0x77, 0x07,
   0x19, 0xc6, 0x29, 0xd7, 0x01, 0x4d, 0x49, 0xa2, 0x4b, 0x4f, 0x98, 0xba, 0xa1, 0x29, 0x2b, 0x49, 0x07,
   0xd6, 0x0a, 0xa6, 0xbf, 0xad, 0xe4, 0x50, 0x08, 0xa6, 0x36, 0x33, 0x7f, 0x51, 0x68, 0xc6, 0x4d, 0x9b,
   0xd3, 0x60, 0x34, 0x80, 0x8c, 0xd5, 0x64, 0x49, 0x0b, 0x1e, 0x65, 0x6e, 0xdb, 0xe7]

/-- The normative `M` byte string as written in the specification (section 6,
SPAKE2+ draft 01 ciphersuite constants). -/
def specNormativeM : List Nat :=
  [0x04, 0x88, 0x6e, 0x2f, 0x97, 0xac, 0xe4, 0x6e, 0x55, 0xba, 0x9d, 0xd7, 0x24, 0x25, 0x79, 0xf2, 0x99,
   0x3b, 0x64, 0xe1, 0x6e, 0xf3, 0xdc, 0xab, 0x95, 0xaf, 0xd4, 0x97, 0x33, 0x3d, 0x8f, 0xa1, 0x2f, 0x5f,
   0xf3, 0x55, 0x16, 0x3e, 0x43, 0xce, 0x22, 0x4e, 0x0b, 0x0e, 0x65, 0xff, 0x02, 0xac, 0x8e, 0x5c, 0x7b,
   0xe0, 0x94, 0x19, 0xc7, 0x85, 0xe0, 0xca, 0x54, 0x7d, 0x55, 0xa1, 0x2e, 0x2d, 0x20]

/-- The normative `N` byte string as written in the specification (section 6). -/
def specNormativeN : List Nat :=
  [0x04, 0xd8, 0xbb, 0xd6, 0xc6, 0x39, 0xc6, 0x29, 0x37, 0xb0, 0x4d, 0x99, 0x7f, 0x38, 0xc3, 0x77, 0x07,
   0x19, 0xc6, 0x29, 0xd7, 0x01, 0x4d, 0x49, 0xa2, 0x4b, 0x4f, 0x98, 0xba, 0xa1, 0x29, 0x2b, 0x49, 0x07,
   0xd6, 0x0a, 0xa6, 0xbf, 0xad, 0xe4, 0x50, 0x08, 0xa6, 0x36, 0x33, 0x7f, 0x51, 0x68, 0xc6, 0x4d, 0x9b,
   0xd3, 0x60, 0x34, 0x80, 0x8c, 0xd5, 0x64, 0x49, 0x0b, 0x1e, 0x65, 0x6e, 0xdb, 0xe7]

/-- ASCII bytes of the HKDF info string "ConfirmationKeys" (spec section 4.3). -/
def confirmationKeysInfo : List Nat :=
  [0x43, 0x6f, 0x6e, 0x66, 0x69, 0x72, 0x6d, 0x61, 0x74, 0x69, 0x6f, 0x6e,
   0x4b, 0x65, 0x79, 0x73]

/-! ### State machine data model (header lines 78-95, 342-688) -/

/-- `CHIP_SPAKE2P_STATE` from the header (lines 78-86). -/
inductive CHIP_SPAKE2P_STATE where
  | PREINIT
  | INIT
  | STARTED
  | R1
  | R2
  | KC
deriving DecidableEq

/-- `CHIP_SPAKE2P_ROLE` from the header (lines 91-95). -/
inductive CHIP_SPAKE2P_ROLE where
  | VERIFIER
  | PROVER
deriving DecidableEq

/-- Error kinds of the spec's error taxonomy (section 7); the header returns
these as `CHIP_ERROR` codes. -/
inductive SpakeErr where
  | INVALID_ARGUMENT
  | BUFFER_TOO_SMALL
  | INVALID_STATE
  | INVALID_SIGNATURE
  | INTERNAL
  | OUT_OF_ENTROPY
deriving DecidableEq

/-- Position of a phase in the strictly monotonic order
PREINIT, INIT, STARTED, R1, R2, KC (spec section 3). -/
def phaseIdx : CHIP_SPAKE2P_STATE → Nat
  | .PREINIT => 0
  | .INIT => 1
  | .STARTED => 2
  | .R1 => 3
  | .R2 => 4
  | .KC => 5

/-- A SPAKE2+ instance, mirroring the member fields of class `Spake2p`
(header lines 571-688): role, state, the secret field elements `w0`, `w1`,
`xy`, the points `L`, `Z`, `V`, the running transcript hash context, the own
round-one output bytes, and the key-schedule buffers `Kcab`, `Kae`.
Field elements are fixed to integers mod the P-256 group order (spec
section 3); the point type `Pt` is abstract, as the header's point
operations are pure virtual. -/
structure SpakeInst (Pt : Type) where
  state : CHIP_SPAKE2P_STATE
  role : CHIP_SPAKE2P_ROLE
  w0 : ZMod qOrder
  w1 : ZMod qOrder
  xy : ZMod qOrder
  Lpt : Option Pt
  Zpt : Option Pt
  Vpt : Option Pt
  XYout : List Nat
  transcript : List Nat
  Kcab : List Nat
  Kae : List Nat
deriving DecidableEq

/-- A freshly constructed instance: phase PREINIT, role VERIFIER (enum value
0), empty buffers. -/
def Spake2pNew {Pt : Type} : SpakeInst Pt :=
  { state := .PREINIT, role := .VERIFIER, w0 := 0, w1 := 0, xy := 0,
    Lpt := none, Zpt := none, Vpt := none, XYout := [],
    transcript := [], Kcab := List.replicate 32 0, Kae := List.replicate 32 0 }

/-- The backend interface of the state machine: the abstract point/hash
operations that the header declares as pure virtual methods of `Spake2p`
(the generator, the loaded constants `M` and `N`, point serialization, the
hash, MAC and KDF primitives).  The point type carries the P-256 group
structure: an additive commutative group of exponent `qOrder`. -/
structure SpakeEnv (Pt : Type) [AddCommGroup Pt] [Module (ZMod qOrder) Pt] where
  gen : Pt
  Mpt : Pt
  Npt : Pt
  pointWrite : Pt → List Nat
  pointLoad : List Nat → Option Pt
  hashFin : List Nat → List Nat
  mac : List Nat → List Nat → List Nat
  kdf : List Nat → List Nat → List Nat → Nat → List Nat

/-- Modelled from the spec: `Spake2p::FELoad` (pure virtual in the header;
its P-256 implementation is not in the sources).  Spec section 4.1: load a
field element from exactly `kP256_FE_Length` big-endian bytes, reduced mod
`q` on load; malformed input is InvalidArgument (modelled as `none`). -/
def feLoad (l : List Nat) : Option (ZMod qOrder) :=
  if l.length = kP256_FE_Length then some ((beNat l : Nat) : ZMod qOrder) else none

/-- Modelled from the spec: `Spake2p::FEWrite` (pure virtual in the header).
Spec section 4.1: write a field element as 32 big-endian bytes. -/
def feWrite (e : ZMod qOrder) : List Nat := beBytes kP256_FE_Length e.val

/-- Modelled from the spec: `Spake2p_P256_SHA256_HKDF_HMAC::FEGenerate`
(declared at header line 710; body not in the sources).  Spec section 4.1:
"uniform random in [1, q), rejection sampling on a DRBG draw".  The argument
is the stream of DRBG draws (each one the big-endian value of a 32-byte
draw); the first draw inside [1, q) is accepted unchanged, all other draws
are rejected; an exhausted stream is a DRBG failure. -/
def feGenerate : List Nat → Option (ZMod qOrder)
  | [] => none
  | d :: rest => if 1 ≤ d ∧ d < qOrder then some ((d : Nat) : ZMod qOrder) else feGenerate rest

/-- `Spake2p::InternalHash` modelled from the spec (section 4.3, cited for
claim C4): append the field to the running transcript, prefixed with its
byte length as an unsigned little-endian 64-bit integer. -/
def internalHash {Pt : Type} (s : SpakeInst Pt) (msg : List Nat) : SpakeInst Pt :=
  { s with transcript := s.transcript ++ lenEnc msg }

/-- The key-schedule accessors `Ka`, `Ke`, `Kca`, `Kcb` are pointers into the
buffers `Kae` and `Kcab` (header lines 682-687): `Ka = Kae[0..16]`,
`Ke = Kae[16..32]`, `Kca = Kcab[0..16]`, `Kcb = Kcab[16..32]`. -/
def Ka {Pt : Type} (s : SpakeInst Pt) : List Nat := s.Kae.take 16

/-- `Ke` is the second half of the `Kae` buffer (header lines 683, 687). -/
def Ke {Pt : Type} (s : SpakeInst Pt) : List Nat := s.Kae.drop 16

/-- `Kca` is the first half of the `Kcab` buffer (header lines 682, 684). -/
def Kca {Pt : Type} (s : SpakeInst Pt) : List Nat := s.Kcab.take 16

/-- `Kcb` is the second half of the `Kcab` buffer (header lines 682, 685). -/
def Kcb {Pt : Type} (s : SpakeInst Pt) : List Nat := s.Kcab.drop 16

/-! ### Protocol operations

    The bodies of `Spake2p::Init`, `BeginProver`, `BeginVerifier`,
    `ComputeRoundOne`, `ComputeRoundTwo`, `KeyConfirm` and `GetKeys` are not
    part of the provided sources (the header only declares them), so each is
    modelled from spec section 4.4.  Every operation returns the (possibly
    updated) instance together with a status, mirroring the C++ convention
    of mutating `this` and returning a `CHIP_ERROR`; a failing operation
    returns the instance unchanged (spec section 8: an operation called out
    of its allowed phase "mutates no state"; the section 4.4 state-machine
    table: on failure the phase stays put). -/

section Ops

variable {Pt : Type} [AddCommGroup Pt] [Module (ZMod qOrder) Pt] [DecidableEq Pt]

/-- Modelled from the spec: `Spake2p::Init` (body missing from the sources).
Section 4.4: "Resets phase to INIT"; section 3 lifecycle: "a second Init
resets it to INIT"; scenario 6: a second Init "restores phase=INIT and
erases prior keys".  The instance is re-initialized from scratch and the
context is fed to the transcript (section 4.3 field 1). -/
def initM (s : SpakeInst Pt) (context : List Nat) : SpakeInst Pt × Except SpakeErr Unit :=
  let _ := s
  (internalHash { Spake2pNew with state := .INIT } context, .ok ())

/-- Modelled from the spec: `Spake2p::BeginProver` (body missing from the
sources).  Section 4.4: requires phase INIT; loads `w0`, `w1`; stores the
identities (transcript order: prover identity `A` then verifier identity
`B`, section 4.3); role becomes PROVER; phase STARTED. -/
def beginProverM (s : SpakeInst Pt) (myId peerId w0in w1in : List Nat) :
    SpakeInst Pt × Except SpakeErr Unit :=
  match s.state with
  | .INIT =>
    match feLoad w0in, feLoad w1in with
    | some w0fe, some w1fe =>
        ({ internalHash (internalHash s myId) peerId with
            role := .PROVER, w0 := w0fe, w1 := w1fe, state := .STARTED }, .ok ())
    | _, _ => (s, .error .INVALID_ARGUMENT)
  | _ => (s, .error .INVALID_STATE)

/-- Modelled from the spec: `Spake2p::BeginVerifier` (body missing from the
sources).  Section 4.4: requires phase INIT; loads `w0` and the point `L`
(which must be on-curve — `pointLoad` rejects malformed, off-curve and
identity inputs); stores the identities in transcript order `A` then `B`
(the verifier's peer identity first); role VERIFIER; phase STARTED. -/
def beginVerifierM (env : SpakeEnv Pt) (s : SpakeInst Pt)
    (myId peerId w0in Lin : List Nat) : SpakeInst Pt × Except SpakeErr Unit :=
  match s.state with
  | .INIT =>
    match feLoad w0in, env.pointLoad Lin with
    | some w0fe, some L0 =>
        ({ internalHash (internalHash s peerId) myId with
            role := .VERIFIER, w0 := w0fe, Lpt := some L0, state := .STARTED }, .ok ())
    | _, _ => (s, .error .INVALID_ARGUMENT)
  | _ => (s, .error .INVALID_STATE)

/-- Modelled from the spec: `Spake2p::ComputeRoundOne` (body missing from
the sources).  Section 4.4: requires phase STARTED; generates the random
scalar `xy` from the DRBG draw stream; the prover emits
`pA = x*G + w0*M`, the verifier `pB = y*G + w0*N`; phase R1; `out_len` is
the point size (65). -/
def computeRoundOneM (env : SpakeEnv Pt) (s : SpakeInst Pt) (draws : List Nat) :
    SpakeInst Pt × Except SpakeErr (List Nat × Nat) :=
  match s.state with
  | .STARTED =>
    match feGenerate draws with
    | none => (s, .error .INTERNAL)
    | some xyfe =>
      let pt : Pt :=
        match s.role with
        | .PROVER => xyfe • env.gen + s.w0 • env.Mpt
        | .VERIFIER => xyfe • env.gen + s.w0 • env.Npt
      let out := env.pointWrite pt
      ({ s with xy := xyfe, XYout := out, state := .R1 }, .ok (out, kP256_Point_Length))
  | _ => (s, .error .INVALID_STATE)

/-- `Spake2p::WriteMN` modelled from the spec: the constants `M` and `N`
are fed to the transcript as their raw 65-byte strings (section 4.3 fields
4 and 5). -/
def writeMN (s : SpakeInst Pt) : SpakeInst Pt :=
  internalHash (internalHash s spake2p_M_p256) spake2p_N_p256

/-- `Spake2p::GenerateKeys` modelled from the spec (section 4.3): finalize
the transcript hash into `Kae` (so `Ka = Kae[0..16]`, `Ke = Kae[16..32]`)
and derive `Kcab` = HKDF(Ka, salt = empty, info = "ConfirmationKeys", 32)
(so `Kca = Kcab[0..16]`, `Kcb = Kcab[16..32]`). -/
def generateKeys (env : SpakeEnv Pt) (s : SpakeInst Pt) : SpakeInst Pt :=
  let TT := env.hashFin s.transcript
  { s with Kae := TT, Kcab := env.kdf (TT.take 16) [] confirmationKeysInfo 32 }

/-- Modelled from the spec: `Spake2p::ComputeRoundTwo` (body missing from
the sources).  Section 4.4: requires phase R1 and a 65-byte input; loads
the peer point (rejecting off-curve and identity); the prover computes
`Z = h*x*(pB - w0*N)`, `V = h*w1*(pB - w0*N)`; the verifier computes
`Z = h*y*(pA - w0*M)`, `V = h*y*L`; `Z` and `V` must be non-identity
(section 3 invariant, checked by the caller per section 4.1); the
transcript is extended with M, N, pA, pB, Z, V, w0 (section 4.3 order:
prover round-one output first regardless of role), the keys are derived,
and the output is the peer-keyed confirmation MAC: HMAC(Kcb, pB) for the
prover, HMAC(Kca, pA) for the verifier; phase R2. -/
def computeRoundTwoM (env : SpakeEnv Pt) (s : SpakeInst Pt) (input : List Nat) :
    SpakeInst Pt × Except SpakeErr (List Nat × Nat) :=
  match s.state with
  | .R1 =>
    if input.length = kP256_Point_Length then
      match env.pointLoad input with
      | none => (s, .error .INVALID_ARGUMENT)
      | some peerPt =>
        match s.role with
        | .PROVER =>
          let base := peerPt - s.w0 • env.Npt
          let Z := p256Cofactor • (s.xy • base)
          let V := p256Cofactor • (s.w1 • base)
          if Z = 0 ∨ V = 0 then (s, .error .INTERNAL)
          else
            let s1 := writeMN s
            let s2 := internalHash s1 s.XYout
            let s3 := internalHash s2 input
            let s4 := internalHash s3 (env.pointWrite Z)
            let s5 := internalHash s4 (env.pointWrite V)
            let s6 := internalHash s5 (feWrite s.w0)
            let s7 := generateKeys env s6
            ({ s7 with Zpt := some Z, Vpt := some V, state := .R2 },
             .ok (env.mac (Kcb s7) input, kMAX_Hash_Length))
        | .VERIFIER =>
          match s.Lpt with
          | none => (s, .error .INTERNAL)
          | some L0 =>
            let Z := p256Cofactor • (s.xy • (peerPt - s.w0 • env.Mpt))
            let V := p256Cofactor • (s.xy • L0)
            if Z = 0 ∨ V = 0 then (s, .error .INTERNAL)
            else
              let s1 := writeMN s
              let s2 := internalHash s1 input
              let s3 := internalHash s2 s.XYout
              let s4 := internalHash s3 (env.pointWrite Z)
              let s5 := internalHash s4 (env.pointWrite V)
              let s6 := internalHash s5 (feWrite s.w0)
              let s7 := generateKeys env s6
              ({ s7 with Zpt := some Z, Vpt := some V, state := .R2 },
               .ok (env.mac (Kca s7) input, kMAX_Hash_Length))
    else (s, .error .INVALID_ARGUMENT)
  | _ => (s, .error .INVALID_STATE)

/-- `Spake2p::MacVerify` modelled from the spec (section 4.2): re-compute
the MAC of `msg` under `key` and compare it with `mac` (the comparison is
constant-time in the implementation; only its functional value is modelled). -/
def macVerify (env : SpakeEnv Pt) (key mac msg : List Nat) : Bool :=
  decide (env.mac key msg = mac)

/-- The confirmation MAC a party expects in `KeyConfirm` (spec section 4.4:
the prover expects HMAC(Kca, pA), the verifier expects HMAC(Kcb, pB);
`pA`/`pB` is the party's own round-one output). -/
def expectedConfirmMac (env : SpakeEnv Pt) (s : SpakeInst Pt) : List Nat :=
  match s.role with
  | .PROVER => env.mac (Kca s) s.XYout
  | .VERIFIER => env.mac (Kcb s) s.XYout

/-- Modelled from the spec: `Spake2p::KeyConfirm` (body missing from the
sources).  Section 4.4: requires phase R2 and a 32-byte input; verifies the
peer confirmation MAC via `MacVerify`; on mismatch fails with
InvalidSignature (phase stays R2, table row "stays R2 (keys not
exposed)"); on success phase becomes KC. -/
def keyConfirmM (env : SpakeEnv Pt) (s : SpakeInst Pt) (input : List Nat) :
    SpakeInst Pt × Except SpakeErr Unit :=
  match s.state with
  | .R2 =>
    if input.length = kMAX_Hash_Length then
      if macVerify env (match s.role with | .PROVER => Kca s | .VERIFIER => Kcb s)
          input s.XYout then
        ({ s with state := .KC }, .ok ())
      else (s, .error .INVALID_SIGNATURE)
    else (s, .error .INVALID_ARGUMENT)
  | _ => (s, .error .INVALID_STATE)

/-- Modelled from the spec: `Spake2p::GetKeys` (body missing from the
sources).  Section 4.4: requires phase KC; writes the 16 bytes of `Ke`
into `out` and sets `out_len` to 16; in every other phase the call fails
with InvalidState (section 4.4 state-machine table) and no bytes are
produced. -/
def getKeysM (s : SpakeInst Pt) : SpakeInst Pt × Except SpakeErr (List Nat × Nat) :=
  match s.state with
  | .KC => (s, .ok ((Ke s).take 16, 16))
  | _ => (s, .error .INVALID_STATE)

end Ops

/-! ### A full mutual exchange -/

/-- Lift a (state, status) pair into `Except`, keeping the state on success. -/
def liftE {Pt α : Type} (x : SpakeInst Pt × Except SpakeErr α) :
    Except SpakeErr (SpakeInst Pt × α) :=
  match x with
  | (s, .ok a) => .ok (s, a)
  | (_, .error e) => .error e

theorem liftE_ok {Pt α : Type} (s : SpakeInst Pt) (a : α) :
    liftE (s, Except.ok a) = Except.ok (s, a) := rfl

theorem liftE_error {Pt α : Type} (s : SpakeInst Pt) (e : SpakeErr) :
    liftE ((s, Except.error e) : SpakeInst Pt × Except SpakeErr α) = Except.error e := rfl

theorem exbind_ok {α β : Type} (a : α) (f : α → Except SpakeErr β) :
    (Except.ok a >>= f) = f a := rfl

theorem exbind_error {α β : Type} (er : SpakeErr) (f : α → Except SpakeErr β) :
    (Except.error er >>= f) = (Except.error er : Except SpakeErr β) := rfl

/-- The observable outcome of a complete mutual exchange: the final
instances, the two round-one messages, and the two `GetKeys` outputs. -/
structure RunResult (Pt : Type) where
  prover : SpakeInst Pt
  verifier : SpakeInst Pt
  pA : List Nat
  pB : List Nat
  pKe : List Nat
  vKe : List Nat
deriving DecidableEq

/-- A complete mutual exchange as described by the header's protocol-flow
diagram (lines 325-340) and claim C1: both sides run Init, BeginProver /
BeginVerifier, ComputeRoundOne, ComputeRoundTwo on the peer's round-one
output, KeyConfirm on the peer's round-two output, then GetKeys.
`xDraws`/`yDraws` are the DRBG draw streams of the two sides. -/
def mutualRun {Pt : Type} [AddCommGroup Pt] [Module (ZMod qOrder) Pt] [DecidableEq Pt]
    (env : SpakeEnv Pt) (context idA idB w0in w1in Lin xDraws yDraws : List Nat) :
    Except SpakeErr (RunResult Pt) := do
  let (p1, _) ← liftE (initM Spake2pNew context)
  let (p2, _) ← liftE (beginProverM p1 idA idB w0in w1in)
  let (v1, _) ← liftE (initM Spake2pNew context)
  let (v2, _) ← liftE (beginVerifierM env v1 idB idA w0in Lin)
  let (p3, pAout) ← liftE (computeRoundOneM env p2 xDraws)
  let (v3, pBout) ← liftE (computeRoundOneM env v2 yDraws)
  let (p4, confP) ← liftE (computeRoundTwoM env p3 pBout.1)
  let (v4, confV) ← liftE (computeRoundTwoM env v3 pAout.1)
  let (p5, _) ← liftE (keyConfirmM env p4 confV.1)
  let (v5, _) ← liftE (keyConfirmM env v4 confP.1)
  let (p6, pKeys) ← liftE (getKeysM p5)
  let (v6, vKeys) ← liftE (getKeysM v5)
  pure { prover := p6, verifier := v6, pA := pAout.1, pB := pBout.1,
         pKe := pKeys.1, vKe := vKeys.1 }

/-- The laws the spec imposes on any conforming backend (section 4.1): a
written valid (non-identity) point loads back to itself; the identity has
no loadable encoding (`PointLoad` "rejects identity"); every successfully
loaded point is valid, hence non-identity; points serialize to 65 bytes
(uncompressed SEC1); the hash produces 32 bytes (SHA-256). -/
structure SpakeEnvLaws {Pt : Type} [AddCommGroup Pt] [Module (ZMod qOrder) Pt]
    (env : SpakeEnv Pt) : Prop where
  load_write : ∀ p : Pt, p ≠ 0 → env.pointLoad (env.pointWrite p) = some p
  load_write_zero : env.pointLoad (env.pointWrite 0) = none
  load_valid : ∀ (bs : List Nat) (p : Pt), env.pointLoad bs = some p → p ≠ 0
  write_len : ∀ p : Pt, (env.pointWrite p).length = kP256_Point_Length
  hash_len : ∀ l : List Nat, (env.hashFin l).length = kMAX_Hash_Length

/-! ### A concrete lawful backend

    The header's arithmetic backend is pure virtual; for concrete witness
    runs we instantiate the abstract point group with the simplest group of
    exponent `qOrder` — `ZMod qOrder` itself — together with an injective
    65-byte serialization that rejects the identity, and simple
    deterministic stand-ins for the hash, MAC and KDF primitives (any
    deterministic functions satisfy the state-machine claims). -/

/-- Concrete point serialization: a 0x04 tag, the 32-byte big-endian value,
and 32 bytes of padding (65 bytes total, like uncompressed SEC1). -/
def cPointWrite (x : ZMod qOrder) : List Nat :=
  4 :: (beBytes 32 x.val ++ List.replicate 32 0)

/-- Concrete point parsing: accepts only 65-byte strings with the 0x04 tag
whose value field is in [1, qOrder) — in particular the identity (value 0)
is rejected, as `PointLoad` requires. -/
def cPointLoad (l : List Nat) : Option (ZMod qOrder) :=
  if l.length = 65 ∧ l.headD 0 = 4 then
    if 1 ≤ beNat ((l.drop 1).take 32) ∧ beNat ((l.drop 1).take 32) < qOrder then
      some ((beNat ((l.drop 1).take 32) : Nat) : ZMod qOrder)
    else none
  else none

/-- Concrete 32-byte hash stand-in. -/
def cHashFin (l : List Nat) : List Nat := List.replicate 32 ((beNat l + l.length) % 256)

/-- Concrete 32-byte MAC stand-in. -/
def cMac (key msg : List Nat) : List Nat :=
  List.replicate 32 ((beNat key + 2 * beNat msg + msg.length) % 256)

/-- Concrete KDF stand-in producing the requested number of bytes. -/
def cKdf (ikm salt info : List Nat) (n : Nat) : List Nat :=
  List.replicate n ((beNat ikm + beNat salt + beNat info) % 256)

/-- The concrete backend: generator 1, `M` = 2, `N` = 3 in `ZMod qOrder`. -/
def cEnv : SpakeEnv (ZMod qOrder) :=
  { gen := 1, Mpt := 2, Npt := 3,
    pointWrite := cPointWrite, pointLoad := cPointLoad,
    hashFin := cHashFin, mac := cMac, kdf := cKdf }

theorem qOrder_lt_pow : qOrder < 256 ^ 32 := by decide

theorem take_len_append {α : Type} (l1 l2 : List α) (n : Nat) (h : l1.length = n) :
    (l1 ++ l2).take n = l1 := by
  subst h
  exact List.take_left l1 l2

theorem cPointWrite_field (p : ZMod qOrder) :
    beNat (((cPointWrite p).drop 1).take 32) = p.val := by
  have : ((cPointWrite p).drop 1).take 32 = beBytes 32 p.val := by
    show ((beBytes 32 p.val ++ List.replicate 32 0).take 32) = beBytes 32 p.val
    exact take_len_append _ _ _ (beBytes_length 32 p.val)
  rw [this]
  exact beNat_beBytes 32 p.val (lt_trans (ZMod.val_lt p) qOrder_lt_pow)

theorem cPointWrite_shape (p : ZMod qOrder) :
    (cPointWrite p).length = 65 ∧ (cPointWrite p).headD 0 = 4 := by
  constructor
  · simp [cPointWrite, beBytes_length]
  · rfl

theorem cPointLoad_cPointWrite (p : ZMod qOrder) (hp : p ≠ 0) :
    cPointLoad (cPointWrite p) = some p := by
  have h1 : 1 ≤ beNat (((cPointWrite p).drop 1).take 32) := by
    rw [cPointWrite_field]
    have : p.val ≠ 0 := fun h => hp ((ZMod.val_eq_zero p).mp h)
    omega
  have h2 : beNat (((cPointWrite p).drop 1).take 32) < qOrder := by
    rw [cPointWrite_field]; exact ZMod.val_lt p
  rw [cPointLoad, if_pos (cPointWrite_shape p), if_pos ⟨h1, h2⟩, cPointWrite_field]
  rw [ZMod.natCast_rightInverse p]

theorem cPointLoad_write_zero : cPointLoad (cPointWrite 0) = none := by
  have hval : beNat (((cPointWrite (0 : ZMod qOrder)).drop 1).take 32) = 0 := by
    rw [cPointWrite_field, ZMod.val_zero]
  rw [cPointLoad, if_pos (cPointWrite_shape 0), if_neg]
  rw [hval]
  omega

theorem cPointLoad_valid (bs : List Nat) (p : ZMod qOrder)
    (h : cPointLoad bs = some p) : p ≠ 0 := by
  rw [cPointLoad] at h
  split at h
  · split at h
    · rename_i hrange
      injection h with h
      subst h
      intro h0
      have := ZMod.val_cast_of_lt hrange.2
      rw [h0, ZMod.val_zero] at this
      omega
    · exact absurd h (by simp)
  · exact absurd h (by simp)

theorem cEnv_load : cEnv.pointLoad = cPointLoad := rfl

theorem cEnv_write : cEnv.pointWrite = cPointWrite := rfl

theorem cEnv_hash : cEnv.hashFin = cHashFin := rfl

theorem cEnvLaws : SpakeEnvLaws cEnv where
  load_write := fun p hp => by
    rw [cEnv_load, cEnv_write]
    exact cPointLoad_cPointWrite p hp
  load_write_zero := by
    rw [cEnv_load, cEnv_write]
    exact cPointLoad_write_zero
  load_valid := fun bs p h => by
    rw [cEnv_load] at h
    exact cPointLoad_valid bs p h
  write_len := fun p => by
    rw [cEnv_write]
    simp [cPointWrite, beBytes_length, kP256_Point_Length]
  hash_len := fun l => by
    rw [cEnv_hash]
    simp [cHashFin, kMAX_Hash_Length]

/-! ### Inversion of a successful mutual run -/

/-- The transcript fields shared by both sides before the round-one
outputs: Context, A, B, M, N (spec section 4.3, fields 1-5). -/
def baseTranscript (context idA idB : List Nat) : List Nat :=
  lenEnc context ++ lenEnc idA ++ lenEnc idB ++
    lenEnc spake2p_M_p256 ++ lenEnc spake2p_N_p256

/-- The state an instance reaches through a successful `ComputeRoundTwo`:
`Z` and `V` recorded, the transcript extended with M, N, pA, pB, Z, V, w0
(spec section 4.3 fields 4-10), the key schedule derived, phase R2. -/
def roundTwoState {Pt : Type} [AddCommGroup Pt] [Module (ZMod qOrder) Pt]
    (env : SpakeEnv Pt) (s : SpakeInst Pt) (pAb pBb : List Nat) (Z V : Pt) :
    SpakeInst Pt :=
  let T := s.transcript ++ lenEnc spake2p_M_p256 ++ lenEnc spake2p_N_p256 ++
    lenEnc pAb ++ lenEnc pBb ++ lenEnc (env.pointWrite Z) ++
    lenEnc (env.pointWrite V) ++ lenEnc (feWrite s.w0)
  { s with Zpt := some Z, Vpt := some V, transcript := T,
           Kae := env.hashFin T,
           Kcab := env.kdf ((env.hashFin T).take 16) [] confirmationKeysInfo 32,
           state := .R2 }

/-- A step of the `Except` monad succeeds only if its first component does. -/
theorem bind_eq_ok {α β : Type} {x : Except SpakeErr α} {f : α → Except SpakeErr β}
    {b : β} (h : (x >>= f) = .ok b) : ∃ a, x = .ok a ∧ f a = .ok b := by
  cases x with
  | ok a => exact ⟨a, rfl, h⟩
  | error e => exact absurd h (by simp [Bind.bind, Except.bind])

theorem liftE_ok_iff {Pt α : Type} (z : SpakeInst Pt × Except SpakeErr α)
    (s : SpakeInst Pt) (a : α) : liftE z = .ok (s, a) ↔ z = (s, .ok a) := by
  obtain ⟨z1, z2⟩ := z
  cases z2 <;> simp [liftE]

section OpInv

variable {Pt : Type} [AddCommGroup Pt] [Module (ZMod qOrder) Pt] [DecidableEq Pt]

/-- Inversion of a successful `ComputeRoundTwo` in the prover role. -/
theorem computeRoundTwoM_prover_ok_inv (env : SpakeEnv Pt) (s s' : SpakeInst Pt)
    (input : List Nat) (out : List Nat × Nat) (hrole : s.role = .PROVER)
    (h : computeRoundTwoM env s input = (s', .ok out)) :
    s.state = .R1 ∧ input.length = kP256_Point_Length ∧
    ∃ P : Pt, env.pointLoad input = some P ∧
      ¬(p256Cofactor • (s.xy • (P - s.w0 • env.Npt)) = 0 ∨
        p256Cofactor • (s.w1 • (P - s.w0 • env.Npt)) = 0) ∧
      s' = roundTwoState env s s.XYout input
             (p256Cofactor • (s.xy • (P - s.w0 • env.Npt)))
             (p256Cofactor • (s.w1 • (P - s.w0 • env.Npt))) ∧
      out = (env.mac (Kcb (roundTwoState env s s.XYout input
             (p256Cofactor • (s.xy • (P - s.w0 • env.Npt)))
             (p256Cofactor • (s.w1 • (P - s.w0 • env.Npt))))) input,
             kMAX_Hash_Length) := by
  unfold computeRoundTwoM at h
  rw [hrole] at h
  split at h
  · rename_i hst
    dsimp only at h
    split at h
    · rename_i hlen
      split at h
      · exact absurd h (by simp)
      · rename_i P hP
        split at h
        · exact absurd h (by simp)
        · rename_i hZV
          rw [Prod.mk.injEq] at h
          obtain ⟨hs', hout⟩ := h
          rw [Except.ok.injEq] at hout
          refine ⟨hst, hlen, P, hP, hZV, ?_, ?_⟩
          · rw [← hs']
            simp [roundTwoState, writeMN, internalHash, generateKeys,
              List.append_assoc]
          · rw [← hout]
            simp [roundTwoState, writeMN, internalHash, generateKeys, Kcb,
              List.append_assoc]
    · exact absurd h (by simp)
  · exact absurd h (by simp)

/-- Inversion of a successful `ComputeRoundTwo` in the verifier role. -/
theorem computeRoundTwoM_verifier_ok_inv (env : SpakeEnv Pt) (s s' : SpakeInst Pt)
    (input : List Nat) (out : List Nat × Nat) (hrole : s.role = .VERIFIER)
    (h : computeRoundTwoM env s input = (s', .ok out)) :
    s.state = .R1 ∧ input.length = kP256_Point_Length ∧
    ∃ (P L0 : Pt), env.pointLoad input = some P ∧ s.Lpt = some L0 ∧
      ¬(p256Cofactor • (s.xy • (P - s.w0 • env.Mpt)) = 0 ∨
        p256Cofactor • (s.xy • L0) = 0) ∧
      s' = roundTwoState env s input s.XYout
             (p256Cofactor • (s.xy • (P - s.w0 • env.Mpt)))
             (p256Cofactor • (s.xy • L0)) ∧
      out = (env.mac (Kca (roundTwoState env s input s.XYout
             (p256Cofactor • (s.xy • (P - s.w0 • env.Mpt)))
             (p256Cofactor • (s.xy • L0)))) input,
             kMAX_Hash_Length) := by
  unfold computeRoundTwoM at h
  rw [hrole] at h
  split at h
  · rename_i hst
    dsimp only at h
    split at h
    · rename_i hlen
      split at h
      · exact absurd h (by simp)
      · rename_i P hP
        split at h
        · exact absurd h (by simp)
        · rename_i L0 hL0
          split at h
          · exact absurd h (by simp)
          · rename_i hZV
            rw [Prod.mk.injEq] at h
            obtain ⟨hs', hout⟩ := h
            rw [Except.ok.injEq] at hout
            refine ⟨hst, hlen, P, L0, hP, hL0, hZV, ?_, ?_⟩
            · rw [← hs']
              simp [roundTwoState, writeMN, internalHash, generateKeys,
                List.append_assoc]
            · rw [← hout]
              simp [roundTwoState, writeMN, internalHash, generateKeys, Kca,
                List.append_assoc]
    · exact absurd h (by simp)
  · exact absurd h (by simp)

/-- Inversion of a successful `ComputeRoundOne`. -/
theorem computeRoundOneM_ok_inv (env : SpakeEnv Pt) (s s' : SpakeInst Pt)
    (draws : List Nat) (out : List Nat × Nat)
    (h : computeRoundOneM env s draws = (s', .ok out)) :
    s.state = .STARTED ∧
    ∃ xyfe : ZMod qOrder, feGenerate draws = some xyfe ∧
      s' = { s with
              xy := xyfe,
              XYout := env.pointWrite (match s.role with
                | .PROVER => xyfe • env.gen + s.w0 • env.Mpt
                | .VERIFIER => xyfe • env.gen + s.w0 • env.Npt),
              state := .R1 } ∧
      out = (env.pointWrite (match s.role with
                | .PROVER => xyfe • env.gen + s.w0 • env.Mpt
                | .VERIFIER => xyfe • env.gen + s.w0 • env.Npt),
             kP256_Point_Length) := by
  unfold computeRoundOneM at h
  split at h
  · rename_i hst
    split at h
    · exact absurd h (by simp)
    · rename_i xyfe hxy
      dsimp only at h
      rw [Prod.mk.injEq] at h
      obtain ⟨hs', hout⟩ := h
      rw [Except.ok.injEq] at hout
      exact ⟨hst, xyfe, hxy, hs'.symm, hout.symm⟩
  · exact absurd h (by simp)

/-- Inversion of a successful `BeginProver`. -/
theorem beginProverM_ok_inv (s s' : SpakeInst Pt) (myId peerId w0in w1in : List Nat)
    (u : Unit) (h : beginProverM s myId peerId w0in w1in = (s', .ok u)) :
    s.state = .INIT ∧
    ∃ (w0fe w1fe : ZMod qOrder), feLoad w0in = some w0fe ∧ feLoad w1in = some w1fe ∧
      s' = { internalHash (internalHash s myId) peerId with
              role := .PROVER, w0 := w0fe, w1 := w1fe, state := .STARTED } := by
  unfold beginProverM at h
  split at h
  · rename_i hst
    split at h
    · rename_i w0fe w1fe hw0 hw1
      rw [Prod.mk.injEq] at h
      exact ⟨hst, w0fe, w1fe, hw0, hw1, h.1.symm⟩
    · exact absurd h (by simp)
  · exact absurd h (by simp)

/-- Inversion of a successful `BeginVerifier`. -/
theorem beginVerifierM_ok_inv (env : SpakeEnv Pt) (s s' : SpakeInst Pt)
    (myId peerId w0in Lin : List Nat) (u : Unit)
    (h : beginVerifierM env s myId peerId w0in Lin = (s', .ok u)) :
    s.state = .INIT ∧
    ∃ (w0fe : ZMod qOrder) (L0 : Pt), feLoad w0in = some w0fe ∧
      env.pointLoad Lin = some L0 ∧
      s' = { internalHash (internalHash s peerId) myId with
              role := .VERIFIER, w0 := w0fe, Lpt := some L0, state := .STARTED } := by
  unfold beginVerifierM at h
  split at h
  · rename_i hst
    split at h
    · rename_i w0fe L0 hw0 hLd
      rw [Prod.mk.injEq] at h
      exact ⟨hst, w0fe, L0, hw0, hLd, h.1.symm⟩
    · exact absurd h (by simp)
  · exact absurd h (by simp)

/-- Inversion of a successful `KeyConfirm`. -/
theorem keyConfirmM_ok_inv (env : SpakeEnv Pt) (s s' : SpakeInst Pt)
    (input : List Nat) (u : Unit) (h : keyConfirmM env s input = (s', .ok u)) :
    s.state = .R2 ∧ input.length = kMAX_Hash_Length ∧
    s' = { s with state := .KC } := by
  unfold keyConfirmM at h
  split at h
  · rename_i hst
    split at h
    · rename_i hlen
      split at h
      · rw [Prod.mk.injEq] at h
        exact ⟨hst, hlen, h.1.symm⟩
      · exact absurd h (by simp)
    · exact absurd h (by simp)
  · exact absurd h (by simp)

/-- Inversion of a successful `GetKeys`. -/
theorem getKeysM_ok_inv (s s' : SpakeInst Pt) (out : List Nat × Nat)
    (h : getKeysM s = (s', .ok out)) :
    s.state = .KC ∧ s' = s ∧ out = ((Ke s).take 16, 16) := by
  unfold getKeysM at h
  split at h
  · rename_i hst
    rw [Prod.mk.injEq] at h
    obtain ⟨h1, h2⟩ := h
    rw [Except.ok.injEq] at h2
    exact ⟨hst, h1.symm, h2.symm⟩
  · exact absurd h (by simp)

end OpInv

/-- Inversion of a successful `mutualRun`: the loads and draws that must
have succeeded, the shape of the two round-one messages, the final states
of both instances (phase KC, the computed `Z`/`V` points, the transcript as
the ten length-prefixed fields of spec section 4.3, and the key schedule),
and the two `GetKeys` outputs. -/
theorem mutualRun_ok_inversion {Pt : Type} [AddCommGroup Pt]
    [Module (ZMod qOrder) Pt] [DecidableEq Pt] (env : SpakeEnv Pt)
    (context idA idB w0in w1in Lin xDraws yDraws : List Nat) (r : RunResult Pt)
    (h : mutualRun env context idA idB w0in w1in Lin xDraws yDraws = .ok r) :
    ∃ (w0fe w1fe x y : ZMod qOrder) (L0 pApt pBpt : Pt),
      feLoad w0in = some w0fe ∧
      feLoad w1in = some w1fe ∧
      env.pointLoad Lin = some L0 ∧
      feGenerate xDraws = some x ∧
      feGenerate yDraws = some y ∧
      r.pA = env.pointWrite (x • env.gen + w0fe • env.Mpt) ∧
      r.pB = env.pointWrite (y • env.gen + w0fe • env.Npt) ∧
      env.pointLoad r.pA = some pApt ∧
      env.pointLoad r.pB = some pBpt ∧
      r.prover.w0 = w0fe ∧ r.verifier.w0 = w0fe ∧
      r.prover.state = .KC ∧ r.verifier.state = .KC ∧
      r.prover.Zpt = some (p256Cofactor • (x • (pBpt - w0fe • env.Npt))) ∧
      r.prover.Vpt = some (p256Cofactor • (w1fe • (pBpt - w0fe • env.Npt))) ∧
      r.verifier.Zpt = some (p256Cofactor • (y • (pApt - w0fe • env.Mpt))) ∧
      r.verifier.Vpt = some (p256Cofactor • (y • L0)) ∧
      r.prover.transcript =
        baseTranscript context idA idB ++ lenEnc r.pA ++ lenEnc r.pB ++
          lenEnc (env.pointWrite (p256Cofactor • (x • (pBpt - w0fe • env.Npt)))) ++
          lenEnc (env.pointWrite (p256Cofactor • (w1fe • (pBpt - w0fe • env.Npt)))) ++
          lenEnc (feWrite w0fe) ∧
      r.verifier.transcript =
        baseTranscript context idA idB ++ lenEnc r.pA ++ lenEnc r.pB ++
          lenEnc (env.pointWrite (p256Cofactor • (y • (pApt - w0fe • env.Mpt)))) ++
          lenEnc (env.pointWrite (p256Cofactor • (y • L0))) ++
          lenEnc (feWrite w0fe) ∧
      r.prover.Kae = env.hashFin r.prover.transcript ∧
      r.verifier.Kae = env.hashFin r.verifier.transcript ∧
      r.prover.Kcab =
        env.kdf ((env.hashFin r.prover.transcript).take 16) [] confirmationKeysInfo 32 ∧
      r.verifier.Kcab =
        env.kdf ((env.hashFin r.verifier.transcript).take 16) [] confirmationKeysInfo 32 ∧
      r.pKe = ((env.hashFin r.prover.transcript).drop 16).take 16 ∧
      r.vKe = ((env.hashFin r.verifier.transcript).drop 16).take 16 := by
  unfold mutualRun at h
  -- prover Init
  obtain ⟨⟨p1, u1⟩, hp1, h⟩ := bind_eq_ok h
  dsimp only at h
  rw [liftE_ok_iff] at hp1
  unfold initM at hp1
  dsimp only at hp1
  rw [Prod.mk.injEq] at hp1
  obtain ⟨hp1, -⟩ := hp1
  subst hp1
  -- prover Begin
  obtain ⟨⟨p2, u2⟩, hp2, h⟩ := bind_eq_ok h
  dsimp only at h
  rw [liftE_ok_iff] at hp2
  obtain ⟨-, w0fe, w1fe, hw0, hw1, hs2⟩ := beginProverM_ok_inv _ _ _ _ _ _ _ hp2
  subst hs2
  -- verifier Init
  obtain ⟨⟨v1, u3⟩, hv1, h⟩ := bind_eq_ok h
  dsimp only at h
  rw [liftE_ok_iff] at hv1
  unfold initM at hv1
  dsimp only at hv1
  rw [Prod.mk.injEq] at hv1
  obtain ⟨hv1, -⟩ := hv1
  subst hv1
  -- verifier Begin
  obtain ⟨⟨v2, u4⟩, hv2, h⟩ := bind_eq_ok h
  dsimp only at h
  rw [liftE_ok_iff] at hv2
  obtain ⟨-, w0fe2, L0, hw02, hLload, hs2v⟩ := beginVerifierM_ok_inv _ _ _ _ _ _ _ _ hv2
  rw [hw0] at hw02
  rw [Option.some.injEq] at hw02
  subst hw02
  subst hs2v
  -- prover round one
  obtain ⟨⟨p3, pAout⟩, hr1p, h⟩ := bind_eq_ok h
  dsimp only at h
  rw [liftE_ok_iff] at hr1p
  obtain ⟨-, x, hx, hs3, hout3⟩ := computeRoundOneM_ok_inv _ _ _ _ _ hr1p
  dsimp only at hs3 hout3
  subst hs3
  subst hout3
  -- verifier round one
  obtain ⟨⟨v3, pBout⟩, hr1v, h⟩ := bind_eq_ok h
  dsimp only at h
  rw [liftE_ok_iff] at hr1v
  obtain ⟨-, y, hy, hs3v, hout3v⟩ := computeRoundOneM_ok_inv _ _ _ _ _ hr1v
  dsimp only at hs3v hout3v
  subst hs3v
  subst hout3v
  -- prover round two
  obtain ⟨⟨p4, confP⟩, hr2p, h⟩ := bind_eq_ok h
  dsimp only at h
  rw [liftE_ok_iff] at hr2p
  obtain ⟨-, hBlen, pBpt, hpBload, hZVp, hs4, hout4⟩ :=
    computeRoundTwoM_prover_ok_inv _ _ _ _ _ rfl hr2p
  subst hs4
  subst hout4
  -- verifier round two
  obtain ⟨⟨v4, confV⟩, hr2v, h⟩ := bind_eq_ok h
  dsimp only at h
  rw [liftE_ok_iff] at hr2v
  obtain ⟨-, hAlen, pApt, L0b, hpAload, hL0b, hZVv, hs4v, hout4v⟩ :=
    computeRoundTwoM_verifier_ok_inv _ _ _ _ _ rfl hr2v
  have hL0eq : (some L0 : Option Pt) = some L0b := hL0b
  rw [Option.some.injEq] at hL0eq
  subst hL0eq
  subst hs4v
  subst hout4v
  -- prover KeyConfirm
  obtain ⟨⟨p5, u5⟩, hkcp, h⟩ := bind_eq_ok h
  dsimp only at h
  rw [liftE_ok_iff] at hkcp
  obtain ⟨-, -, hs5⟩ := keyConfirmM_ok_inv _ _ _ _ _ hkcp
  subst hs5
  -- verifier KeyConfirm
  obtain ⟨⟨v5, u6⟩, hkcv, h⟩ := bind_eq_ok h
  dsimp only at h
  rw [liftE_ok_iff] at hkcv
  obtain ⟨-, -, hs5v⟩ := keyConfirmM_ok_inv _ _ _ _ _ hkcv
  subst hs5v
  -- prover GetKeys
  obtain ⟨⟨p6, pKeys⟩, hgkp, h⟩ := bind_eq_ok h
  dsimp only at h
  rw [liftE_ok_iff] at hgkp
  obtain ⟨-, hs6, hout6⟩ := getKeysM_ok_inv _ _ _ hgkp
  subst hs6
  subst hout6
  -- verifier GetKeys
  obtain ⟨⟨v6, vKeys⟩, hgkv, h⟩ := bind_eq_ok h
  dsimp only at h
  rw [liftE_ok_iff] at hgkv
  obtain ⟨-, hs6v, hout6v⟩ := getKeysM_ok_inv _ _ _ hgkv
  subst hs6v
  subst hout6v
  -- collect the final result
  rw [show (pure : RunResult Pt → Except SpakeErr (RunResult Pt)) = Except.ok from rfl] at h
  rw [Except.ok.injEq] at h
  subst h
  refine ⟨w0fe, w1fe, x, y, L0, pApt, pBpt, hw0, hw1, hLload, hx, hy,
    rfl, rfl, hpAload, hpBload, rfl, rfl, rfl, rfl, rfl, rfl, rfl, rfl,
    ?_, ?_, rfl, rfl, rfl, rfl, ?_, ?_⟩
  all_goals
    simp [roundTwoState, internalHash, Spake2pNew, baseTranscript, Ke,
      List.append_assoc]

/-! ### Claim C1: both sides derive the same Ke -/

/-- Claim C1: for every valid input set (w0, w1, identities, context) with
the verifier provisioned with `L = w1*G`, and every choice of the
per-exchange random scalars (DRBG draw streams), if both sides run the full
sequence Init, BeginProver/BeginVerifier, ComputeRoundOne, ComputeRoundTwo
(each fed the peer's round-one output) and KeyConfirm (each fed the peer's
round-two output) and every call succeeds, then `Prover.GetKeys` and
`Verifier.GetKeys` write the same 16 bytes `Ke`. -/
theorem spake2p_mutual_run_derives_equal_Ke {Pt : Type} [AddCommGroup Pt]
    [Module (ZMod qOrder) Pt] [DecidableEq Pt] (env : SpakeEnv Pt)
    (laws : SpakeEnvLaws env) (context idA idB w0in w1in xDraws yDraws : List Nat)
    (w1fe : ZMod qOrder) (r : RunResult Pt)
    (hw1 : feLoad w1in = some w1fe)
    (h : mutualRun env context idA idB w0in w1in
          (env.pointWrite (w1fe • env.gen)) xDraws yDraws = .ok r) :
    r.pKe = r.vKe ∧ r.pKe.length = 16 := by
  obtain ⟨w0fe, w1fe2, x, y, L0, pApt, pBpt, hw0, hw12, hL, hx, hy, hpA, hpB,
    hpAload, hpBload, -, -, -, -, -, -, -, -, hTP, hTV, -, -, -, -, hpKe, hvKe⟩ :=
    mutualRun_ok_inversion env _ _ _ _ _ _ _ _ r h
  rw [hw1, Option.some.injEq] at hw12
  subst hw12
  -- the provisioned L decodes to w1*G
  have hgen0 : w1fe • env.gen ≠ 0 := by
    intro h0
    rw [h0, laws.load_write_zero] at hL
    exact absurd hL (by simp)
  have hL0 : L0 = w1fe • env.gen := by
    rw [laws.load_write _ hgen0, Option.some.injEq] at hL
    exact hL.symm
  subst hL0
  -- the exchanged round-one points decode to what was written
  have hA0 : (x • env.gen + w0fe • env.Mpt) ≠ 0 := by
    intro h0
    rw [hpA, h0, laws.load_write_zero] at hpAload
    exact absurd hpAload (by simp)
  have hApt : pApt = x • env.gen + w0fe • env.Mpt := by
    rw [hpA, laws.load_write _ hA0, Option.some.injEq] at hpAload
    exact hpAload.symm
  have hB0 : (y • env.gen + w0fe • env.Npt) ≠ 0 := by
    intro h0
    rw [hpB, h0, laws.load_write_zero] at hpBload
    exact absurd hpBload (by simp)
  have hBpt : pBpt = y • env.gen + w0fe • env.Npt := by
    rw [hpB, laws.load_write _ hB0, Option.some.injEq] at hpBload
    exact hpBload.symm
  subst hApt
  subst hBpt
  -- the SPAKE2+ algebra: both sides computed the same Z and V
  have hZeq : x • (y • env.gen + w0fe • env.Npt - w0fe • env.Npt)
      = y • (x • env.gen + w0fe • env.Mpt - w0fe • env.Mpt) := by
    rw [add_sub_cancel_right, add_sub_cancel_right, smul_smul, smul_smul, mul_comm]
  have hVeq : w1fe • (y • env.gen + w0fe • env.Npt - w0fe • env.Npt)
      = y • (w1fe • env.gen) := by
    rw [add_sub_cancel_right, smul_smul, smul_smul, mul_comm]
  have hT : r.prover.transcript = r.verifier.transcript := by
    rw [hTP, hTV, hZeq, hVeq]
  constructor
  · rw [hpKe, hvKe, hT]
  · rw [hpKe, List.length_take, List.length_drop, laws.hash_len]
    decide

/-! ### Concrete witness run -/

deriving instance DecidableEq for Except

/-- A placeholder run result (used only to extract a computed result). -/
def runResultDefault {Pt : Type} : RunResult Pt :=
  { prover := Spake2pNew, verifier := Spake2pNew,
    pA := [], pB := [], pKe := [], vKe := [] }

/-- Witness context bytes. -/
def c1Context : List Nat := [67, 72, 73, 80]

/-- Witness prover identity bytes. -/
def c1IdA : List Nat := [65, 65]

/-- Witness verifier identity bytes. -/
def c1IdB : List Nat := [66]

/-- Witness w0 input: 32 big-endian bytes encoding 6. -/
def c1W0in : List Nat := beBytes 32 6

/-- Witness w1 input: 32 big-endian bytes encoding 5. -/
def c1W1in : List Nat := beBytes 32 5

/-- The result of the witness run on the concrete backend. -/
def c1Res : RunResult (ZMod qOrder) :=
  (mutualRun cEnv c1Context c1IdA c1IdB c1W0in c1W1in
    (cEnv.pointWrite ((5 : ZMod qOrder) • cEnv.gen)) [11] [13]).toOption.getD
    runResultDefault

set_option maxRecDepth 1000000 in
/-- Witness for C1: a complete concrete run on the concrete backend, with
`L = w1*G` provisioned, succeeds and yields equal 16-byte `Ke` on both
sides. -/
theorem spake2p_mutual_run_derives_equal_Ke_witness :
    feLoad c1W1in = some (5 : ZMod qOrder) ∧
    mutualRun cEnv c1Context c1IdA c1IdB c1W0in c1W1in
      (cEnv.pointWrite ((5 : ZMod qOrder) • cEnv.gen)) [11] [13] = .ok c1Res ∧
    (c1Res.pKe = c1Res.vKe ∧ c1Res.pKe.length = 16) :=
  ⟨by decide, by decide,
    spake2p_mutual_run_derives_equal_Ke cEnv cEnvLaws c1Context c1IdA c1IdB
      c1W0in c1W1in [11] [13] 5 c1Res (by decide) (by decide)⟩

/-! ### Claim C2: phase discipline -/

/-- Status of an operation as an optional error (CHIP_NO_ERROR = `none`). -/
def errOpt {α : Type} : Except SpakeErr α → Option SpakeErr
  | .ok _ => none
  | .error e => some e

theorem errOpt_eq_none {α : Type} (x : Except SpakeErr α) :
    errOpt x = none ↔ ∃ a, x = .ok a := by
  cases x <;> simp [errOpt]

/-- The six phase-guarded operations of the state machine (`Init` is
treated separately: it resets the instance). -/
inductive SpakeOp where
  | beginProver (myId peerId w0in w1in : List Nat)
  | beginVerifier (myId peerId w0in Lin : List Nat)
  | computeRoundOne (draws : List Nat)
  | computeRoundTwo (input : List Nat)
  | keyConfirm (input : List Nat)
  | getKeys

/-- Run one operation, keeping the updated instance and its status. -/
def applyOp {Pt : Type} [AddCommGroup Pt] [Module (ZMod qOrder) Pt] [DecidableEq Pt]
    (env : SpakeEnv Pt) (s : SpakeInst Pt) : SpakeOp → SpakeInst Pt × Option SpakeErr
  | .beginProver a b c d => ((beginProverM s a b c d).1, errOpt (beginProverM s a b c d).2)
  | .beginVerifier a b c d =>
      ((beginVerifierM env s a b c d).1, errOpt (beginVerifierM env s a b c d).2)
  | .computeRoundOne d => ((computeRoundOneM env s d).1, errOpt (computeRoundOneM env s d).2)
  | .computeRoundTwo i => ((computeRoundTwoM env s i).1, errOpt (computeRoundTwoM env s i).2)
  | .keyConfirm i => ((keyConfirmM env s i).1, errOpt (keyConfirmM env s i).2)
  | .getKeys => ((getKeysM s).1, errOpt (getKeysM s).2)

/-- The phase each operation requires (spec section 4.4 state-machine table). -/
def requiredState : SpakeOp → CHIP_SPAKE2P_STATE
  | .beginProver .. => .INIT
  | .beginVerifier .. => .INIT
  | .computeRoundOne .. => .STARTED
  | .computeRoundTwo .. => .R1
  | .keyConfirm .. => .R2
  | .getKeys => .KC

/-- The phase each operation reaches on success (spec section 4.4 table;
`GetKeys` stays at KC). -/
def successState : SpakeOp → CHIP_SPAKE2P_STATE
  | .beginProver .. => .STARTED
  | .beginVerifier .. => .STARTED
  | .computeRoundOne .. => .R1
  | .computeRoundTwo .. => .R2
  | .keyConfirm .. => .KC
  | .getKeys => .KC

/-- An instance sitting in the final phase KC. -/
def sAtKC : SpakeInst (ZMod qOrder) := { Spake2pNew with state := .KC }

/-- Counterexample to claim C2 as stated: `Init` is one of the listed
operations and its required (source) phase in the spec's state-machine
table is PREINIT, yet calling it on an instance in phase KC does not
return InvalidState — it succeeds and resets the phase to INIT, which also
moves the phase backwards (contradicting strict monotonicity). -/
theorem spake2p_phase_claim_cex :
    sAtKC.state ≠ .PREINIT ∧
    (initM sAtKC c1Context).2 = Except.ok () ∧
    (initM sAtKC c1Context).1.state = .INIT ∧
    phaseIdx (initM sAtKC c1Context).1.state < phaseIdx sAtKC.state := by
  refine ⟨by decide, rfl, rfl, by decide⟩

/-- Claim C2 (amended): every operation of the state machine except `Init`
(BeginProver, BeginVerifier, ComputeRoundOne, ComputeRoundTwo, KeyConfirm,
GetKeys), called in a phase other than its required one, returns
InvalidState and leaves the instance unchanged; an operation that succeeds
was called in its required phase and moves the phase to exactly the next
phase (GetKeys stays at KC); and `Init`, callable in any phase, always
succeeds and resets the instance to phase INIT. -/
theorem spake2p_phase_discipline_amended {Pt : Type} [AddCommGroup Pt]
    [Module (ZMod qOrder) Pt] [DecidableEq Pt] (env : SpakeEnv Pt)
    (s : SpakeInst Pt) (op : SpakeOp) (context : List Nat) :
    (s.state ≠ requiredState op → applyOp env s op = (s, some .INVALID_STATE)) ∧
    (∀ s2 : SpakeInst Pt, applyOp env s op = (s2, none) →
      s.state = requiredState op ∧ s2.state = successState op) ∧
    (initM s context).2 = .ok () ∧ (initM s context).1.state = .INIT := by
  refine ⟨?_, ?_, rfl, rfl⟩
  · intro hne
    cases op <;> cases hst : s.state <;>
      simp_all [applyOp, beginProverM, beginVerifierM, computeRoundOneM,
        computeRoundTwoM, keyConfirmM, getKeysM, errOpt, requiredState]
  · intro s2 hok
    cases op with
    | beginProver a b c d =>
      simp only [applyOp] at hok
      rw [Prod.mk.injEq] at hok
      obtain ⟨h1, h2⟩ := hok
      rw [errOpt_eq_none] at h2
      obtain ⟨u, h2⟩ := h2
      have hpair : beginProverM s a b c d = (s2, .ok u) := by rw [← h1, ← h2]
      obtain ⟨hst, w0fe, w1fe, -, -, hs2⟩ := beginProverM_ok_inv _ _ _ _ _ _ _ hpair
      subst hs2
      exact ⟨hst, rfl⟩
    | beginVerifier a b c d =>
      simp only [applyOp] at hok
      rw [Prod.mk.injEq] at hok
      obtain ⟨h1, h2⟩ := hok
      rw [errOpt_eq_none] at h2
      obtain ⟨u, h2⟩ := h2
      have hpair : beginVerifierM env s a b c d = (s2, .ok u) := by rw [← h1, ← h2]
      obtain ⟨hst, w0fe, L0, -, -, hs2⟩ := beginVerifierM_ok_inv _ _ _ _ _ _ _ _ hpair
      subst hs2
      exact ⟨hst, rfl⟩
    | computeRoundOne d =>
      simp only [applyOp] at hok
      rw [Prod.mk.injEq] at hok
      obtain ⟨h1, h2⟩ := hok
      rw [errOpt_eq_none] at h2
      obtain ⟨u, h2⟩ := h2
      have hpair : computeRoundOneM env s d = (s2, .ok u) := by rw [← h1, ← h2]
      obtain ⟨hst, xyfe, -, hs2, -⟩ := computeRoundOneM_ok_inv _ _ _ _ _ hpair
      subst hs2
      exact ⟨hst, rfl⟩
    | computeRoundTwo i =>
      simp only [applyOp] at hok
      rw [Prod.mk.injEq] at hok
      obtain ⟨h1, h2⟩ := hok
      rw [errOpt_eq_none] at h2
      obtain ⟨u, h2⟩ := h2
      have hpair : computeRoundTwoM env s i = (s2, .ok u) := by rw [← h1, ← h2]
      cases hrole : s.role with
      | PROVER =>
        obtain ⟨hst, -, P, -, -, hs2, -⟩ :=
          computeRoundTwoM_prover_ok_inv _ _ _ _ _ hrole hpair
        subst hs2
        exact ⟨hst, rfl⟩
      | VERIFIER =>
        obtain ⟨hst, -, P, L0, -, -, -, hs2, -⟩ :=
          computeRoundTwoM_verifier_ok_inv _ _ _ _ _ hrole hpair
        subst hs2
        exact ⟨hst, rfl⟩
    | keyConfirm i =>
      simp only [applyOp] at hok
      rw [Prod.mk.injEq] at hok
      obtain ⟨h1, h2⟩ := hok
      rw [errOpt_eq_none] at h2
      obtain ⟨u, h2⟩ := h2
      have hpair : keyConfirmM env s i = (s2, .ok u) := by rw [← h1, ← h2]
      obtain ⟨hst, -, hs2⟩ := keyConfirmM_ok_inv _ _ _ _ _ hpair
      subst hs2
      exact ⟨hst, rfl⟩
    | getKeys =>
      simp only [applyOp] at hok
      rw [Prod.mk.injEq] at hok
      obtain ⟨h1, h2⟩ := hok
      rw [errOpt_eq_none] at h2
      obtain ⟨u, h2⟩ := h2
      have hpair : getKeysM s = (s2, .ok u) := by rw [← h1, ← h2]
      obtain ⟨hst, hs2, -⟩ := getKeysM_ok_inv _ _ _ hpair
      subst hs2
      exact ⟨hst, hst⟩

set_option maxRecDepth 100000 in
/-- Witness for the amended C2: `GetKeys` on a fresh (PREINIT) instance is
out of phase and fails with INVALID_STATE leaving the instance unchanged. -/
theorem spake2p_phase_discipline_amended_witness :
    (Spake2pNew : SpakeInst (ZMod qOrder)).state ≠ requiredState .getKeys ∧
    applyOp cEnv Spake2pNew .getKeys = (Spake2pNew, some .INVALID_STATE) :=
  ⟨by decide,
    (spake2p_phase_discipline_amended cEnv Spake2pNew .getKeys []).1 (by decide)⟩

/-! ### Claim C3: KeyConfirm -/

/-- Claim C3: `KeyConfirm`, called in phase R2 with a 32-byte input,
verifies the peer confirmation MAC (the prover expects HMAC(Kca, pA), the
verifier HMAC(Kcb, pB), where pA/pB is the party's own round-one output)
through the `MacVerify` operation; on mismatch it returns InvalidSignature,
the phase stays R2, and `Ke` is not exposed (`GetKeys` still fails with
InvalidState); on success the phase becomes KC.  (The constant-time nature
of the comparison is an implementation property outside this model; only
the functional behaviour is stated.) -/
theorem spake2p_keyConfirm_mac_check {Pt : Type} [AddCommGroup Pt]
    [Module (ZMod qOrder) Pt] [DecidableEq Pt] (env : SpakeEnv Pt)
    (s : SpakeInst Pt) (input : List Nat)
    (hst : s.state = .R2) (hlen : input.length = kMAX_Hash_Length) :
    (input = expectedConfirmMac env s →
      keyConfirmM env s input = ({ s with state := .KC }, .ok ()) ∧
      (keyConfirmM env s input).1.state = .KC) ∧
    (input ≠ expectedConfirmMac env s →
      keyConfirmM env s input = (s, .error .INVALID_SIGNATURE) ∧
      (keyConfirmM env s input).1.state = .R2 ∧
      (getKeysM (keyConfirmM env s input).1).2 = .error .INVALID_STATE) := by
  have heq : keyConfirmM env s input =
      if expectedConfirmMac env s = input
      then ({ s with state := .KC }, .ok ())
      else (s, .error .INVALID_SIGNATURE) := by
    unfold keyConfirmM
    rw [hst]
    dsimp only
    rw [if_pos hlen]
    cases hrole : s.role <;>
      simp [macVerify, expectedConfirmMac, hrole]
  constructor
  · intro hmac
    rw [heq, if_pos hmac.symm]
    exact ⟨rfl, rfl⟩
  · intro hmac
    rw [heq, if_neg (fun hc => hmac hc.symm)]
    refine ⟨rfl, hst, ?_⟩
    unfold getKeysM
    rw [hst]

/-- A concrete instance sitting in phase R2 for the C3 witness. -/
def sC3 : SpakeInst (ZMod qOrder) :=
  { Spake2pNew with
    state := .R2,
    role := .PROVER,
    XYout := [1],
    Kcab := List.replicate 32 7,
    Kae := List.replicate 32 9 }

/-- A concrete 32-byte confirmation input that does not match. -/
def c3Input : List Nat := List.replicate 32 0

set_option maxRecDepth 100000 in
/-- Witness for C3: on the concrete backend, a mismatching 32-byte
confirmation fails with INVALID_SIGNATURE, the phase stays R2, and
`GetKeys` still fails. -/
theorem spake2p_keyConfirm_mac_check_witness :
    c3Input ≠ expectedConfirmMac cEnv sC3 ∧
    keyConfirmM cEnv sC3 c3Input = (sC3, .error .INVALID_SIGNATURE) ∧
    (keyConfirmM cEnv sC3 c3Input).1.state = .R2 ∧
    (getKeysM (keyConfirmM cEnv sC3 c3Input).1).2 = .error .INVALID_STATE := by
  have h := (spake2p_keyConfirm_mac_check cEnv sC3 c3Input rfl (by decide)).2
    (by decide)
  exact ⟨by decide, h.1, h.2.1, h.2.2⟩

/-! ### Claim C4: transcript framing and key schedule -/

/-- Claim C4: for every completed exchange, the transcript hashed into TT
consists of exactly the ten fields Context, A, B, M, N, pA, pB, Z, V, w0 in
that order, each prefixed with its byte length as an unsigned little-endian
64-bit integer (`lenEnc`); TT is split as `Ka = TT[0..16]`,
`Ke = TT[16..32]`; and `Kca`, `Kcb` are the first and last 16 bytes of
HKDF(Ka, salt = empty, info = "ConfirmationKeys", 32). -/
theorem spake2p_transcript_ten_fields {Pt : Type} [AddCommGroup Pt]
    [Module (ZMod qOrder) Pt] [DecidableEq Pt] (env : SpakeEnv Pt)
    (context idA idB w0in w1in Lin xDraws yDraws : List Nat) (r : RunResult Pt)
    (h : mutualRun env context idA idB w0in w1in Lin xDraws yDraws = .ok r) :
    (r.prover.transcript =
      lenEnc context ++ lenEnc idA ++ lenEnc idB ++
      lenEnc spake2p_M_p256 ++ lenEnc spake2p_N_p256 ++
      lenEnc r.pA ++ lenEnc r.pB ++
      lenEnc ((r.prover.Zpt.map env.pointWrite).getD []) ++
      lenEnc ((r.prover.Vpt.map env.pointWrite).getD []) ++
      lenEnc (feWrite r.prover.w0) ∧
     r.verifier.transcript =
      lenEnc context ++ lenEnc idA ++ lenEnc idB ++
      lenEnc spake2p_M_p256 ++ lenEnc spake2p_N_p256 ++
      lenEnc r.pA ++ lenEnc r.pB ++
      lenEnc ((r.verifier.Zpt.map env.pointWrite).getD []) ++
      lenEnc ((r.verifier.Vpt.map env.pointWrite).getD []) ++
      lenEnc (feWrite r.verifier.w0)) ∧
    (r.prover.Kae = env.hashFin r.prover.transcript ∧
     Ka r.prover = (env.hashFin r.prover.transcript).take 16 ∧
     Ke r.prover = (env.hashFin r.prover.transcript).drop 16 ∧
     r.prover.Kcab =
       env.kdf ((env.hashFin r.prover.transcript).take 16) [] confirmationKeysInfo 32 ∧
     Kca r.prover =
       (env.kdf ((env.hashFin r.prover.transcript).take 16) [] confirmationKeysInfo 32).take 16 ∧
     Kcb r.prover =
       (env.kdf ((env.hashFin r.prover.transcript).take 16) [] confirmationKeysInfo 32).drop 16) ∧
    (r.verifier.Kae = env.hashFin r.verifier.transcript ∧
     Ka r.verifier = (env.hashFin r.verifier.transcript).take 16 ∧
     Ke r.verifier = (env.hashFin r.verifier.transcript).drop 16 ∧
     r.verifier.Kcab =
       env.kdf ((env.hashFin r.verifier.transcript).take 16) [] confirmationKeysInfo 32 ∧
     Kca r.verifier =
       (env.kdf ((env.hashFin r.verifier.transcript).take 16) [] confirmationKeysInfo 32).take 16 ∧
     Kcb r.verifier =
       (env.kdf ((env.hashFin r.verifier.transcript).take 16) [] confirmationKeysInfo 32).drop 16) := by
  obtain ⟨w0fe, w1fe2, x, y, L0, pApt, pBpt, hw0, hw12, hL, hx, hy, hpA, hpB,
    hpAload, hpBload, hw0P, hw0V, -, -, hZptP, hVptP, hZptV, hVptV,
    hTP, hTV, hKaeP, hKaeV, hKcabP, hKcabV, -, -⟩ :=
    mutualRun_ok_inversion env _ _ _ _ _ _ _ _ r h
  refine ⟨⟨?_, ?_⟩, ⟨hKaeP, ?_, ?_, hKcabP, ?_, ?_⟩, ⟨hKaeV, ?_, ?_, hKcabV, ?_, ?_⟩⟩
  · rw [hTP, hZptP, hVptP, hw0P]
    simp [baseTranscript, List.append_assoc]
  · rw [hTV, hZptV, hVptV, hw0V]
    simp [baseTranscript, List.append_assoc]
  · rw [Ka, hKaeP]
  · rw [Ke, hKaeP]
  · rw [Kca, hKcabP]
  · rw [Kcb, hKcabP]
  · rw [Ka, hKaeV]
  · rw [Ke, hKaeV]
  · rw [Kca, hKcabV]
  · rw [Kcb, hKcabV]

set_option maxRecDepth 1000000 in
/-- Witness for C4: the concrete witness run satisfies the hypotheses of
the transcript theorem. -/
theorem spake2p_transcript_ten_fields_witness :
    mutualRun cEnv c1Context c1IdA c1IdB c1W0in c1W1in
      (cEnv.pointWrite ((5 : ZMod qOrder) • cEnv.gen)) [11] [13] = .ok c1Res ∧
    c1Res.prover.transcript =
      lenEnc c1Context ++ lenEnc c1IdA ++ lenEnc c1IdB ++
      lenEnc spake2p_M_p256 ++ lenEnc spake2p_N_p256 ++
      lenEnc c1Res.pA ++ lenEnc c1Res.pB ++
      lenEnc ((c1Res.prover.Zpt.map cEnv.pointWrite).getD []) ++
      lenEnc ((c1Res.prover.Vpt.map cEnv.pointWrite).getD []) ++
      lenEnc (feWrite c1Res.prover.w0) :=
  ⟨by decide,
    (((spake2p_transcript_ten_fields cEnv c1Context c1IdA c1IdB c1W0in c1W1in
      (cEnv.pointWrite ((5 : ZMod qOrder) • cEnv.gen)) [11] [13] c1Res
      (by decide)).1).1)⟩

/-! ### Claim C5: FEGenerate -/

/-- Claim C5: every successful `FEGenerate` produces a field element in the
half-open interval [1, q) — in particular never zero — by rejection
sampling on the DRBG draw stream: the first draw inside [1, q) is accepted
unchanged (so each value of the interval arises from exactly the draw equal
to it, which is the combinatorial content of uniformity). -/
theorem spake2p_feGenerate_range_uniform (draws rest : List Nat) (d : Nat)
    (fe : ZMod qOrder) (hgen : feGenerate draws = some fe)
    (hd1 : 1 ≤ d) (hdq : d < qOrder) :
    (1 ≤ fe.val ∧ fe.val < qOrder) ∧
    feGenerate (d :: rest) = some ((d : Nat) : ZMod qOrder) ∧
    ((d : Nat) : ZMod qOrder).val = d := by
  refine ⟨?_, ?_, ZMod.val_cast_of_lt hdq⟩
  · induction draws with
    | nil => exact absurd hgen (by simp [feGenerate])
    | cons a rest2 ih =>
      rw [feGenerate] at hgen
      split at hgen
      · rename_i hcond
        rw [Option.some.injEq] at hgen
        subst hgen
        rw [ZMod.val_cast_of_lt hcond.2]
        exact hcond
      · exact ih hgen
  · rw [feGenerate, if_pos ⟨hd1, hdq⟩]

/-- Witness for C5: the draw stream [0, 7] rejects 0 and accepts 7; the
draw 9 is accepted immediately. -/
theorem spake2p_feGenerate_range_uniform_witness :
    feGenerate [0, 7] = some ((7 : Nat) : ZMod qOrder) ∧
    ((1 ≤ ((7 : Nat) : ZMod qOrder).val ∧ ((7 : Nat) : ZMod qOrder).val < qOrder) ∧
     feGenerate [9, 1] = some ((9 : Nat) : ZMod qOrder) ∧
     ((9 : Nat) : ZMod qOrder).val = 9) :=
  ⟨by decide,
    spake2p_feGenerate_range_uniform [0, 7] [1] 9 ((7 : Nat) : ZMod qOrder)
      (by decide) (by decide) (by decide)⟩

/-! ### Claim C6: the constants M and N -/

/-- Claim C6: the constants `spake2p_M_p256` and `spake2p_N_p256` equal,
byte for byte, the normative 65-byte uncompressed SEC1 strings of SPAKE2+
draft 01 given in the specification; `M` begins 04 88 6e 2f and ends
2e 2d 20, `N` begins 04 d8 bb d6 and ends db e7. -/
theorem spake2p_MN_constants_normative :
    spake2p_M_p256 = specNormativeM ∧ spake2p_N_p256 = specNormativeN ∧
    spake2p_M_p256.length = 65 ∧ spake2p_N_p256.length = 65 ∧
    spake2p_M_p256.take 4 = [0x04, 0x88, 0x6e, 0x2f] ∧
    spake2p_M_p256.drop 62 = [0x2e, 0x2d, 0x20] ∧
    spake2p_N_p256.take 4 = [0x04, 0xd8, 0xbb, 0xd6] ∧
    spake2p_N_p256.drop 63 = [0xdb, 0xe7] := by
  decide

/-! ### Claim C7: GetKeys -/

/-- Claim C7: `GetKeys` succeeds exactly in phase KC, in which case it
returns the 16 bytes of `Ke` (the second half of the 32-byte `Kae` buffer)
and sets the output length to 16, without mutating the instance; in every
other phase it fails with InvalidState and no bytes are produced. -/
theorem spake2p_getKeys_only_in_KC {Pt : Type} (s : SpakeInst Pt)
    (hKae : s.Kae.length = kMAX_Hash_Length) :
    getKeysM s = (s, if s.state = .KC then .ok ((Ke s).take 16, 16)
                     else .error .INVALID_STATE) ∧
    (Ke s).length = 16 ∧ (Ke s).take 16 = Ke s := by
  refine ⟨?_, ?_, ?_⟩
  · cases hst : s.state <;> simp [getKeysM, hst]
  · rw [Ke, List.length_drop, hKae]
    decide
  · rw [List.take_of_length_le]
    rw [Ke, List.length_drop, hKae]
    decide

/-- A concrete instance in phase KC for the C7 witness. -/
def sC7 : SpakeInst (ZMod qOrder) :=
  { Spake2pNew with
    state := .KC,
    Kae := List.replicate 32 3 }

set_option maxRecDepth 100000 in
/-- Witness for C7: on a concrete KC instance with a 32-byte `Kae`,
`GetKeys` returns the 16 bytes of `Ke`. -/
theorem spake2p_getKeys_only_in_KC_witness :
    sC7.Kae.length = kMAX_Hash_Length ∧
    (getKeysM sC7 = (sC7, if sC7.state = .KC then .ok ((Ke sC7).take 16, 16)
                          else .error .INVALID_STATE) ∧
     (Ke sC7).length = 16 ∧ (Ke sC7).take 16 = Ke sC7) :=
  ⟨by decide, spake2p_getKeys_only_in_KC sC7 (by decide)⟩

/-! ### Claim C8: zeroization on destruction -/

/-- `ClearSecretData(buf, len)` (declared at header lines 741-745, body not
in the sources; modelled from the spec and the header doc): sets the first
`len` bytes of `buf` to zero. -/
def clearSecretData (buf : List Nat) (len : Nat) : List Nat :=
  List.replicate (min len buf.length) 0 ++ buf.drop len

/-- Modelled from the spec: the destructor of a PAKE instance (the header
only declares `~Spake2p_P256_SHA256_HKDF_HMAC` calling `FreeImpl`, whose
body is not in the sources).  Spec sections 3 and 5: dropping an instance
zeroizes all secret material (w0, w1, xy, Ka, Ke, Kca, Kcb, L, Z, V) via
`ClearSecretData`; the byte buffers `Kcab` and `Kae` are cleared over their
full 32-byte length, the backend handles for the field elements and points
are zeroized and released. -/
def spake2pDestroy {Pt : Type} (s : SpakeInst Pt) : SpakeInst Pt :=
  { s with
    w0 := 0,
    w1 := 0,
    xy := 0,
    Lpt := none,
    Zpt := none,
    Vpt := none,
    Kcab := clearSecretData s.Kcab kMAX_Hash_Length,
    Kae := clearSecretData s.Kae kMAX_Hash_Length }

/-- Claim C8: on destruction every piece of secret material is zeroed via
`ClearSecretData`: after destruction the memory that held w0, w1, xy (read
back through `FEWrite`, i.e. their 32-byte big-endian images), Ka, Ke, Kca,
Kcb is observably zero, and the L, Z, V handles are gone. -/
theorem spake2p_destruction_zeroizes {Pt : Type} (s : SpakeInst Pt)
    (h1 : s.Kcab.length = kMAX_Hash_Length) (h2 : s.Kae.length = kMAX_Hash_Length) :
    feWrite (spake2pDestroy s).w0 = List.replicate 32 0 ∧
    feWrite (spake2pDestroy s).w1 = List.replicate 32 0 ∧
    feWrite (spake2pDestroy s).xy = List.replicate 32 0 ∧
    (spake2pDestroy s).Kae = List.replicate 32 0 ∧
    (spake2pDestroy s).Kcab = List.replicate 32 0 ∧
    Ka (spake2pDestroy s) = List.replicate 16 0 ∧
    Ke (spake2pDestroy s) = List.replicate 16 0 ∧
    Kca (spake2pDestroy s) = List.replicate 16 0 ∧
    Kcb (spake2pDestroy s) = List.replicate 16 0 ∧
    (spake2pDestroy s).Lpt = none ∧ (spake2pDestroy s).Zpt = none ∧
    (spake2pDestroy s).Vpt = none := by
  have hfe : feWrite (0 : ZMod qOrder) = List.replicate 32 0 := by
    rw [feWrite, ZMod.val_zero, beBytes_zero]
    rfl
  have hKae : (spake2pDestroy s).Kae = List.replicate 32 0 := by
    show clearSecretData s.Kae kMAX_Hash_Length = List.replicate 32 0
    rw [clearSecretData, h2, List.drop_eq_nil_of_le (le_of_eq h2)]
    simp [kMAX_Hash_Length]
  have hKcab : (spake2pDestroy s).Kcab = List.replicate 32 0 := by
    show clearSecretData s.Kcab kMAX_Hash_Length = List.replicate 32 0
    rw [clearSecretData, h1, List.drop_eq_nil_of_le (le_of_eq h1)]
    simp [kMAX_Hash_Length]
  refine ⟨hfe, hfe, hfe, hKae, hKcab, ?_, ?_, ?_, ?_, rfl, rfl, rfl⟩
  · rw [Ka, hKae]
    simp [List.take_replicate]
  · rw [Ke, hKae]
    simp [List.drop_replicate]
  · rw [Kca, hKcab]
    simp [List.take_replicate]
  · rw [Kcb, hKcab]
    simp [List.drop_replicate]

/-- A concrete instance holding secret material for the C8 witness. -/
def sC8 : SpakeInst (ZMod qOrder) :=
  { (Spake2pNew : SpakeInst (ZMod qOrder)) with
    state := .KC,
    w0 := 6,
    w1 := 5,
    xy := 11,
    Lpt := some 5,
    Zpt := some 143,
    Vpt := some 65,
    Kcab := List.replicate 32 7,
    Kae := List.replicate 32 9 }

set_option maxRecDepth 100000 in
/-- Witness for C8: destroying a concrete instance leaves all secret
fields observably zero. -/
theorem spake2p_destruction_zeroizes_witness :
    (sC8.Kcab.length = kMAX_Hash_Length ∧ sC8.Kae.length = kMAX_Hash_Length) ∧
    (feWrite (spake2pDestroy sC8).w0 = List.replicate 32 0 ∧
     feWrite (spake2pDestroy sC8).w1 = List.replicate 32 0 ∧
     feWrite (spake2pDestroy sC8).xy = List.replicate 32 0 ∧
     (spake2pDestroy sC8).Kae = List.replicate 32 0 ∧
     (spake2pDestroy sC8).Kcab = List.replicate 32 0 ∧
     Ka (spake2pDestroy sC8) = List.replicate 16 0 ∧
     Ke (spake2pDestroy sC8) = List.replicate 16 0 ∧
     Kca (spake2pDestroy sC8) = List.replicate 16 0 ∧
     Kcb (spake2pDestroy sC8) = List.replicate 16 0 ∧
     (spake2pDestroy sC8).Lpt = none ∧ (spake2pDestroy sC8).Zpt = none ∧
     (spake2pDestroy sC8).Vpt = none) :=
  ⟨⟨by decide, by decide⟩,
    spake2p_destruction_zeroizes sC8 (by decide) (by decide)⟩

/-! ### Claim C9: point and field-element round trips -/

/-- The P-256 curve equation for affine coordinates:
`y^2 = x^3 - 3x + b` over the base field. -/
def isOnCurveP256 (x y : ZMod pPrime) : Prop :=
  y ^ 2 = x ^ 3 - 3 * x + (bCoeff : ZMod pPrime)

instance (x y : ZMod pPrime) : Decidable (isOnCurveP256 x y) :=
  inferInstanceAs (Decidable (y ^ 2 = x ^ 3 - 3 * x + (bCoeff : ZMod pPrime)))

/-- Modelled from the spec: `PointWrite` of the P-256 binding (declared at
header line 714, body not in the sources).  A valid (non-identity) point
has affine coordinates (x, y) and is written in uncompressed SEC1 form
0x04 || X || Y, 65 bytes, coordinates 32-byte big-endian. -/
def pointWriteP256 (x y : ZMod pPrime) : List Nat :=
  4 :: (beBytes 32 x.val ++ beBytes 32 y.val)

/-- Modelled from the spec: `PointLoad` of the P-256 binding (declared at
header line 713, body not in the sources).  Accepts only 65-byte
uncompressed SEC1 strings with in-range coordinates whose point lies on the
curve; the identity has no affine SEC1 encoding, so it is rejected, as are
off-curve points (spec section 4.1). -/
def pointLoadP256 (l : List Nat) : Option (ZMod pPrime × ZMod pPrime) :=
  if l.length = 65 ∧ l.headD 0 = 4 then
    if beNat ((l.drop 1).take 32) < pPrime ∧ beNat ((l.drop 1).drop 32) < pPrime then
      if isOnCurveP256 ((beNat ((l.drop 1).take 32) : Nat) : ZMod pPrime)
          ((beNat ((l.drop 1).drop 32) : Nat) : ZMod pPrime)
      then some (((beNat ((l.drop 1).take 32) : Nat) : ZMod pPrime),
                 ((beNat ((l.drop 1).drop 32) : Nat) : ZMod pPrime))
      else none
    else none
  else none

theorem pPrime_lt_pow : pPrime < 256 ^ 32 := by decide

theorem drop_len_append {α : Type} (l1 l2 : List α) (n : Nat) (h : l1.length = n) :
    (l1 ++ l2).drop n = l2 := by
  subst h
  exact List.drop_left l1 l2

/-- Claim C9: for every valid on-curve (non-identity, i.e. affine) point P,
`PointLoad(PointWrite(P))` returns P; and for every field element e,
`FELoad(FEWrite(e))` returns e (already reduced mod q). -/
theorem spake2p_point_fe_roundtrip (x y : ZMod pPrime) (e : ZMod qOrder)
    (hcurve : isOnCurveP256 x y) :
    pointLoadP256 (pointWriteP256 x y) = some (x, y) ∧
    feLoad (feWrite e) = some e := by
  constructor
  · have hx : beNat (((pointWriteP256 x y).drop 1).take 32) = x.val := by
      have h1 : ((pointWriteP256 x y).drop 1).take 32 = beBytes 32 x.val := by
        show ((beBytes 32 x.val ++ beBytes 32 y.val).take 32) = beBytes 32 x.val
        exact take_len_append _ _ _ (beBytes_length 32 x.val)
      rw [h1]
      exact beNat_beBytes 32 x.val (lt_trans (ZMod.val_lt x) pPrime_lt_pow)
    have hy : beNat (((pointWriteP256 x y).drop 1).drop 32) = y.val := by
      have h1 : ((pointWriteP256 x y).drop 1).drop 32 = beBytes 32 y.val := by
        show ((beBytes 32 x.val ++ beBytes 32 y.val).drop 32) = beBytes 32 y.val
        exact drop_len_append _ _ _ (beBytes_length 32 x.val)
      rw [h1]
      exact beNat_beBytes 32 y.val (lt_trans (ZMod.val_lt y) pPrime_lt_pow)
    have hshape : (pointWriteP256 x y).length = 65 ∧ (pointWriteP256 x y).headD 0 = 4 := by
      constructor
      · simp [pointWriteP256, beBytes_length]
      · rfl
    rw [pointLoadP256, if_pos hshape, hx, hy]
    rw [if_pos ⟨ZMod.val_lt x, ZMod.val_lt y⟩]
    rw [ZMod.natCast_rightInverse x, ZMod.natCast_rightInverse y]
    rw [if_pos hcurve]
  · rw [feLoad]
    rw [show feWrite e = beBytes kP256_FE_Length e.val from rfl]
    rw [if_pos (beBytes_length kP256_FE_Length e.val)]
    rw [beNat_beBytes _ e.val (lt_trans (ZMod.val_lt e) (by decide))]
    rw [ZMod.natCast_rightInverse e]

/-- x-coordinate of the P-256 generator as a field element. -/
def gxFE : ZMod pPrime := (gxP256 : Nat)

/-- y-coordinate of the P-256 generator as a field element. -/
def gyFE : ZMod pPrime := (gyP256 : Nat)

set_option maxRecDepth 100000 in
/-- Witness for C9: the P-256 generator is on the curve, and both round
trips hold for it and for the field element 3. -/
theorem spake2p_point_fe_roundtrip_witness :
    isOnCurveP256 gxFE gyFE ∧
    (pointLoadP256 (pointWriteP256 gxFE gyFE) = some (gxFE, gyFE) ∧
     feLoad (feWrite (3 : ZMod qOrder)) = some (3 : ZMod qOrder)) :=
  ⟨by decide, spake2p_point_fe_roundtrip gxFE gyFE 3 (by decide)⟩

/-! ### Claim C10: the constructor zeroes the opaque backend context -/

/-- `memset(buf, v, n)` over a byte buffer: the first `n` bytes become `v`. -/
def memsetBytes (buf : List Nat) (v n : Nat) : List Nat :=
  List.replicate (min n buf.length) v ++ buf.drop n

/-- `Spake2pOpaqueContext` (header lines 690-693): an opaque buffer of
`kMAX_Spake2p_Context_Size` (1024) bytes holding backend state. -/
structure Spake2pOpaqueContext where
  mOpaqueData : List Nat
deriving DecidableEq

/-- The constructor `Spake2p_P256_SHA256_HKDF_HMAC()` (header lines
698-701): `memset(&mSpake2pContext, 0, sizeof(mSpake2pContext))` — whatever
stale bytes the context memory held, they are overwritten with zeros before
any operation runs. -/
def mkSpake2p_P256_SHA256_HKDF_HMAC (stale : List Nat) : Spake2pOpaqueContext :=
  ⟨memsetBytes stale 0 kMAX_Spake2p_Context_Size⟩

/-- Claim C10: every newly constructed `Spake2p_P256_SHA256_HKDF_HMAC` has
its entire 1024-byte opaque SPAKE2+ context set to all-zero bytes, no
matter what stale bytes previously occupied that memory. -/
theorem spake2p_ctor_zeroes_context (stale : List Nat)
    (h : stale.length = kMAX_Spake2p_Context_Size) :
    (mkSpake2p_P256_SHA256_HKDF_HMAC stale).mOpaqueData =
      List.replicate kMAX_Spake2p_Context_Size 0 := by
  show memsetBytes stale 0 kMAX_Spake2p_Context_Size =
    List.replicate kMAX_Spake2p_Context_Size 0
  rw [memsetBytes, h, Nat.min_self, List.drop_eq_nil_of_le (le_of_eq h)]
  rw [List.append_nil]

/-- Witness for C10: constructing over 1024 bytes of stale 0xAB memory
yields an all-zero context. -/
theorem spake2p_ctor_zeroes_context_witness :
    (List.replicate 1024 171).length = kMAX_Spake2p_Context_Size ∧
    (mkSpake2p_P256_SHA256_HKDF_HMAC (List.replicate 1024 171)).mOpaqueData =
      List.replicate kMAX_Spake2p_Context_Size 0 :=
  ⟨List.length_replicate 1024 171,
    spake2p_ctor_zeroes_context (List.replicate 1024 171)
      (List.length_replicate 1024 171)⟩
